import Mathlib

/-!
Verification of the `no-crlf` CRLF→LF normalizer (`src/main.rs`).

Byte buffers are modelled as `List Nat` (each element a byte value).
The pure transform `convert_crlf_to_lf`, the CRLF-presence check used by
`process_file`, the hidden-name test `is_hidden`, the classifier
`is_text_file`, and the orchestration (`process_file`, the directory walk,
`process_path` and the `main` loop) are shallowly embedded below, with
filesystem and external-crate effects (file reads/writes, media-type
detection by the `file_format` crate, the `walkdir` traversal) represented
explicitly as data supplied to the embedded functions.
-/

namespace NoCrlf

/-- Embeds `convert_crlf_to_lf` (src/main.rs:253-273): scan left to right;
a `\r` (13) immediately followed by `\n` (10) is replaced by a single `\n`
advancing two positions; any other byte is emitted unchanged. -/
def convert_crlf_to_lf : List Nat → List Nat
  | [] => []
  | [a] => [a]
  | a :: b :: rest =>
      if a = 13 ∧ b = 10 then 10 :: convert_crlf_to_lf rest
      else a :: convert_crlf_to_lf (b :: rest)

/-- Embeds the CRLF-presence check `content.windows(2).any(|w| w == b"\r\n")`
(src/main.rs:174). -/
def hasCRLF : List Nat → Bool
  | a :: b :: rest => (a == 13 && b == 10) || hasCRLF (b :: rest)
  | _ => false

/-- Number of CRLF pairs consumed by the left-to-right scan of
`convert_crlf_to_lf` (same recursion structure as the scan). -/
def crlfPairs : List Nat → Nat
  | a :: b :: rest =>
      if a = 13 ∧ b = 10 then crlfPairs rest + 1 else crlfPairs (b :: rest)
  | _ => 0

/-- Presence of the three-byte substring `\r\r\n` (13, 13, 10). -/
def containsCRCRLF : List Nat → Bool
  | a :: b :: c :: rest =>
      (a == 13 && b == 13 && c == 10) || containsCRCRLF (b :: c :: rest)
  | _ => false

/-- An operating-system name component (`OsStr` in the source): either valid
UTF-8 (so `to_str` succeeds) or invalid bytes (so `to_str` returns `None`). -/
inductive OsName where
  | utf8 (s : String) : OsName
  | invalid (bytes : List Nat) : OsName
deriving DecidableEq

/-- Embeds `OsStr::to_str`. -/
def OsName.toStr : OsName → Option String
  | .utf8 s => some s
  | .invalid _ => none

/-- Models Rust `str::starts_with` on string slices. -/
def strStartsWith (s p : String) : Bool := p.data.isPrefixOf s.data

/-- Embeds `is_hidden` (src/main.rs:142-147): the argument is what
`path.file_name()` returns for the path being tested. -/
def is_hidden (fileName : Option OsName) : Bool :=
  ((fileName.bind OsName.toStr).map (fun name => strStartsWith name ".")).getD
    false

/-- A path as yielded by the walk: its components from the root downward.
`file_name()` of such a path is its last component. -/
def is_hidden_path (p : List OsName) : Bool := is_hidden p.getLast?

/-- Opaque error of `file_format::FileFormat::from_file` (this external call
performs the file open/read, so I/O failures surface as this error). -/
inductive FmtErr where
  | err : FmtErr
deriving DecidableEq

/-- Opaque I/O error (`anyhow::Error` in the source). -/
inductive IOErr where
  | fail : IOErr
deriving DecidableEq

/-- The extension allow-list of `is_text_file` (src/main.rs:221-226 and
234-239, both occurrences are identical). -/
def codeExtensions : List String :=
  ["rs", "toml", "json", "yaml", "yml", "md", "txt",
   "sh", "py", "js", "ts", "c", "cpp", "h", "hpp",
   "java", "go", "rb", "php", "cs", "swift", "kt"]

/-- Embeds the `matches!(path.extension().and_then(|s| s.to_str()), ...)`
check: the argument is `path.extension().and_then(to_str)`. -/
def is_code_ext : Option String → Bool
  | some e => codeExtensions.contains e
  | none => false

/-- Embeds `is_text_file` (src/main.rs:207-250). `fmt` is the result of
`file_format::FileFormat::from_file(path)` (the media type on success),
`ext` is `path.extension().and_then(to_str)`. -/
def is_text_file (fmt : Except FmtErr String) (ext : Option String) :
    Except IOErr Bool :=
  match fmt with
  | .ok mediaType => .ok (strStartsWith mediaType "text/" || is_code_ext ext)
  | .error _ => .ok (is_code_ext ext)

deriving instance DecidableEq for Except

/-- The two counters threaded by `&mut` through the processing functions
(`total_files` and `converted_files` in `main`, src/main.rs:40-41). -/
structure Counters where
  total_files : Nat
  converted_files : Nat
deriving DecidableEq

/-- Per-file environment: the data the filesystem and the `file_format`
crate supply for one candidate file. -/
structure FileEnv where
  fmt : Except FmtErr String
  ext : Option String
  readResult : Except IOErr (List Nat)
  writeResult : Except IOErr Unit
deriving DecidableEq

/-- Result of one `process_file` call: the `Result<()>` returned, the
updated counters, and the bytes written back to disk (if any). -/
structure FileResult where
  result : Except IOErr Unit
  counters : Counters
  written : Option (List Nat)
deriving DecidableEq

/-- Embeds `process_file` (src/main.rs:150-204). -/
def process_file (env : FileEnv) (dry_run : Bool) (c : Counters) : FileResult :=
  match is_text_file env.fmt env.ext with
  | .error e => ⟨.error e, c, none⟩
  | .ok false => ⟨.ok (), c, none⟩
  | .ok true =>
      let c1 : Counters := ⟨c.total_files + 1, c.converted_files⟩
      match env.readResult with
      | .error e => ⟨.error e, c1, none⟩
      | .ok content =>
          if hasCRLF content = false then ⟨.ok (), c1, none⟩
          else
            let converted := convert_crlf_to_lf content
            if converted.length = content.length then ⟨.ok (), c1, none⟩
            else
              if dry_run then
                ⟨.ok (), ⟨c1.total_files, c1.converted_files + 1⟩, none⟩
              else
                match env.writeResult with
                | .error e => ⟨.error e, c1, none⟩
                | .ok _ =>
                    ⟨.ok (), ⟨c1.total_files, c1.converted_files + 1⟩,
                      some converted⟩

/-- Whether a file reaches the conversion stage of `process_file`:
classified as text, read succeeds, content has a CRLF, and the transform
changes the length. -/
def reachesConvert (env : FileEnv) : Bool :=
  match is_text_file env.fmt env.ext, env.readResult with
  | .ok true, .ok content =>
      hasCRLF content && !((convert_crlf_to_lf content).length == content.length)
  | _, _ => false

/-- Whether the environment's write would succeed. -/
def writeOk (env : FileEnv) : Bool :=
  match env.writeResult with
  | .ok _ => true
  | .error _ => false

/- A filesystem tree under a directory root: regular files carry their
per-file environment, directories their children (in the order the
platform's read-dir returns them). Models the tree that `walkdir`
traverses; symbolic links do not occur (`follow_links(false)`). -/
mutual
inductive FSTree where
  | file (name : OsName) (env : FileEnv) : FSTree
  | dir (name : OsName) (entries : FSForest) : FSTree
inductive FSForest where
  | nil : FSForest
  | cons (t : FSTree) (rest : FSForest) : FSForest
end

/-- A yielded walk entry: the full path of the entry (components from the
root downward) and, when the entry is a regular file, its environment. -/
abbrev PEntry := List OsName × Option FileEnv

/- Models the `walkdir::WalkDir` iteration in the recursive case
(src/main.rs:107): depth-first, the root is yielded first, then each
entry before its children; every entry of the tree is yielded —
`walkdir` knows nothing about hidden names and descends everywhere. -/
mutual
def walk : FSTree → List PEntry
  | .file n env => [([n], some env)]
  | .dir n entries =>
      ([n], none) :: (walkForest entries).map (fun pe => (n :: pe.1, pe.2))
def walkForest : FSForest → List PEntry
  | .nil => []
  | .cons t rest => walk t ++ walkForest rest
end

/-- The depth-1 view of a child entry used by the non-recursive walk. -/
def depth1Entry (n : OsName) : FSTree → PEntry
  | .file m env => ([n, m], some env)
  | .dir m _ => ([n, m], none)

/-- Direct children of a directory as depth-1 walk entries. -/
def depth1Children (n : OsName) : FSForest → List PEntry
  | .nil => []
  | .cons t rest => depth1Entry n t :: depth1Children n rest

/-- Models `WalkDir::new(dir).max_depth(1)` (src/main.rs:110): the root
and its direct children only, no descent into subdirectories. -/
def walkDepth1 : FSTree → List PEntry
  | .file n env => [([n], some env)]
  | .dir n entries => ([n], none) :: depth1Children n entries

/-- State accumulated by `process_directory`: the counters plus, for
reporting, the result recorded for each processed file and the writes
performed on disk. -/
structure DirState where
  counters : Counters
  outcomes : List (List OsName × Except IOErr Unit)
  writes : List (List OsName × List Nat)
deriving DecidableEq

/-- Embeds the body of the `for entry in walker` loop of
`process_directory` (src/main.rs:113-136) for one yielded entry:
skip the entry when `skip_hidden` and its base name is hidden; process it
with `process_file` when it is a regular file (a `process_file` error is
logged and swallowed, src/main.rs:127-129). -/
def stepEntry (skip_hidden dry_run : Bool) (st : DirState) (e : PEntry) :
    DirState :=
  if skip_hidden && is_hidden_path e.1 then st
  else
    match e.2 with
    | none => st
    | some env =>
        let r := process_file env dry_run st.counters
        ⟨r.counters, st.outcomes ++ [(e.1, r.result)],
          st.writes ++
            (match r.written with | some w => [(e.1, w)] | none => [])⟩

/-- The `process_directory` loop over a list of yielded entries. -/
def process_entries (entries : List PEntry) (skip_hidden dry_run : Bool)
    (st : DirState) : DirState :=
  entries.foldl (stepEntry skip_hidden dry_run) st

/-- Embeds `process_directory` (src/main.rs:97-139): walk (recursively or
with `max_depth(1)`) and run the loop body on every yielded entry. Always
returns `Ok(())` in the source — errors of individual files are swallowed. -/
def process_directory (t : FSTree) (recursive skip_hidden dry_run : Bool)
    (c : Counters) : DirState :=
  process_entries (if recursive then walk t else walkDepth1 t)
    skip_hidden dry_run ⟨c, [], []⟩

/-- A root path supplied on the command line, as the filesystem resolves
it: missing (`!path.exists()`), a regular file, a directory, or an
existing object that is neither. -/
inductive RootTarget where
  | missing : RootTarget
  | fileRoot (name : OsName) (env : FileEnv) : RootTarget
  | dirRoot (t : FSTree) : RootTarget
  | other : RootTarget

/-- Embeds `process_path` (src/main.rs:71-94): a missing root returns an
error; a file root is processed directly (its `process_file` error is
logged and swallowed, src/main.rs:83-85); a directory root is walked; an
existing root that is neither only logs a warning and returns `Ok`. -/
def process_path (r : RootTarget) (recursive skip_hidden dry_run : Bool)
    (c : Counters) : Except Unit DirState :=
  match r with
  | .missing => .error ()
  | .fileRoot n env =>
      let fr := process_file env dry_run c
      .ok ⟨fr.counters, [([n], fr.result)],
        match fr.written with | some w => [([n], w)] | none => []⟩
  | .dirRoot t => .ok (process_directory t recursive skip_hidden dry_run c)
  | .other => .ok ⟨c, [], []⟩

/-- State of the `main` loop: counters, the `errors` counter, and the
accumulated per-file outcomes and disk writes of the whole run. -/
structure RunState where
  counters : Counters
  errors : Nat
  outcomes : List (List OsName × Except IOErr Unit)
  writes : List (List OsName × List Nat)
deriving DecidableEq

/-- Embeds one iteration of the `for path in &args.paths` loop of `main`
(src/main.rs:45-57): on `Err` from `process_path` the error counter is
incremented; on `Ok` the results are taken over. -/
def runStep (recursive skip_hidden dry_run : Bool) (st : RunState)
    (r : RootTarget) : RunState :=
  match process_path r recursive skip_hidden dry_run st.counters with
  | .ok d =>
      ⟨d.counters, st.errors, st.outcomes ++ d.outcomes, st.writes ++ d.writes⟩
  | .error _ => ⟨st.counters, st.errors + 1, st.outcomes, st.writes⟩

/-- The `main` loop from an arbitrary starting state. -/
def runFrom (roots : List RootTarget) (recursive skip_hidden dry_run : Bool)
    (st : RunState) : RunState :=
  roots.foldl (runStep recursive skip_hidden dry_run) st

/-- Embeds the whole run of `main` (src/main.rs:40-57): all counters start
at zero, every root is processed in order. -/
def runAll (roots : List RootTarget) (recursive skip_hidden dry_run : Bool) :
    RunState :=
  runFrom roots recursive skip_hidden dry_run ⟨⟨0, 0⟩, 0, [], []⟩

/-- Whether a root target is missing from the filesystem. -/
def isMissingRoot : RootTarget → Bool
  | .missing => true
  | _ => false

/-- Number of missing roots among the supplied root paths. -/
def countMissing (roots : List RootTarget) : Nat :=
  roots.countP (fun r => isMissingRoot r)

/-- The candidates the loop of `process_directory` actually processes:
entries that survive the hidden filter and are regular files. -/
def selectedFiles (entries : List PEntry) (skip_hidden : Bool) :
    List PEntry :=
  entries.filter (fun e => !(skip_hidden && is_hidden_path e.1) && e.2.isSome)

/-- The boolean that `is_text_file` wraps in `Ok` (it never returns `Err`). -/
def classifyBool (env : FileEnv) : Bool :=
  match env.fmt with
  | .ok mediaType => strStartsWith mediaType "text/" || is_code_ext env.ext
  | .error _ => is_code_ext env.ext

/-- A concrete text-classified file whose content `A\r\n` holds one CRLF
and whose read and write both succeed. -/
def envCRLF : FileEnv :=
  ⟨.ok "text/plain", some "txt", .ok [65, 13, 10], .ok ()⟩

/-- A concrete text-classified file whose read fails with an I/O error. -/
def envReadErr : FileEnv :=
  ⟨.ok "text/plain", some "txt", .error .fail, .ok ()⟩

/-- A concrete text-classified file whose content `B\r\n` holds one CRLF,
whose read succeeds and whose write-back fails with an I/O error. -/
def envWriteErr : FileEnv :=
  ⟨.ok "text/plain", some "txt", .ok [66, 13, 10], .error .fail⟩

/-- A concrete text file `config.txt` with content `Hi\r\n`. -/
def gitFileEnv : FileEnv :=
  ⟨.ok "text/plain", some "txt", .ok [72, 105, 13, 10], .ok ()⟩

/-- A concrete directory `root` containing the hidden directory `.git`,
which contains the regular file `config.txt`. -/
def hiddenTree : FSTree :=
  .dir (.utf8 "root")
    (.cons (.dir (.utf8 ".git")
      (.cons (.file (.utf8 "config.txt") gitFileEnv) .nil)) .nil)

@[simp] theorem convert_nil : convert_crlf_to_lf [] = [] := rfl

@[simp] theorem convert_singleton (a : Nat) : convert_crlf_to_lf [a] = [a] := rfl

theorem convert_cons_pair (rest : List Nat) :
    convert_crlf_to_lf (13 :: 10 :: rest) = 10 :: convert_crlf_to_lf rest := by
  simp [convert_crlf_to_lf]

theorem convert_cons_other (a b : Nat) (rest : List Nat)
    (h : ¬(a = 13 ∧ b = 10)) :
    convert_crlf_to_lf (a :: b :: rest) = a :: convert_crlf_to_lf (b :: rest) := by
  simp only [convert_crlf_to_lf, if_neg h]

@[simp] theorem crlfPairs_nil : crlfPairs [] = 0 := rfl

@[simp] theorem crlfPairs_singleton (a : Nat) : crlfPairs [a] = 0 := rfl

theorem crlfPairs_cons_pair (rest : List Nat) :
    crlfPairs (13 :: 10 :: rest) = crlfPairs rest + 1 := by
  simp [crlfPairs]

theorem crlfPairs_cons_other (a b : Nat) (rest : List Nat)
    (h : ¬(a = 13 ∧ b = 10)) :
    crlfPairs (a :: b :: rest) = crlfPairs (b :: rest) := by
  simp only [crlfPairs, if_neg h]

@[simp] theorem hasCRLF_nil : hasCRLF [] = false := rfl

@[simp] theorem hasCRLF_singleton (a : Nat) : hasCRLF [a] = false := rfl

theorem hasCRLF_cons_cons (a b : Nat) (rest : List Nat) :
    hasCRLF (a :: b :: rest) = ((a == 13 && b == 10) || hasCRLF (b :: rest)) := by
  simp [hasCRLF]

theorem hasCRLF_cons_of_ne (a : Nat) (l : List Nat) (ha : a ≠ 13) :
    hasCRLF (a :: l) = hasCRLF l := by
  cases l with
  | nil => simp [hasCRLF]
  | cons b r => simp [hasCRLF, ha]

theorem hasCRLF_cr_cons (l : List Nat) (hl : l.head? ≠ some 10) :
    hasCRLF (13 :: l) = hasCRLF l := by
  cases l with
  | nil => simp [hasCRLF]
  | cons b r =>
      have hb : b ≠ 10 := by
        intro h
        exact hl (by simp [h])
      simp [hasCRLF, hb]

theorem convert_head (b : Nat) (l : List Nat) :
    (convert_crlf_to_lf (b :: l)).head?
      = if b = 13 ∧ l.head? = some 10 then some 10 else some b := by
  cases l with
  | nil => simp [convert_crlf_to_lf]
  | cons c r =>
      by_cases h : b = 13 ∧ c = 10
      · simp [convert_crlf_to_lf, h]
      · have h' : ¬(b = 13 ∧ (c :: r).head? = some 10) := by
          simpa using h
        simp [convert_crlf_to_lf, h, h']

theorem crlfPairs_eq_zero_iff (l : List Nat) :
    crlfPairs l = 0 ↔ hasCRLF l = false := by
  induction l using convert_crlf_to_lf.induct with
  | case1 => simp
  | case2 a => simp [hasCRLF]
  | case3 a b rest h ih =>
      obtain ⟨rfl, rfl⟩ := h
      simp [crlfPairs_cons_pair, hasCRLF_cons_cons]
  | case4 a b rest h ih =>
      have hb : (a == 13 && b == 10) = false := by
        simpa using fun h13 h10 => h ⟨h13, h10⟩
      simp [crlfPairs_cons_other a b rest h, hasCRLF_cons_cons, hb, ih]

theorem convert_length (l : List Nat) :
    (convert_crlf_to_lf l).length + crlfPairs l = l.length := by
  induction l using convert_crlf_to_lf.induct with
  | case1 => simp
  | case2 a => simp
  | case3 a b rest h ih =>
      obtain ⟨rfl, rfl⟩ := h
      rw [convert_cons_pair, crlfPairs_cons_pair]
      simp only [List.length_cons] at ih ⊢
      omega
  | case4 a b rest h ih =>
      rw [convert_cons_other a b rest h, crlfPairs_cons_other a b rest h]
      simp only [List.length_cons] at ih ⊢
      omega

theorem convert_sublist (l : List Nat) :
    (convert_crlf_to_lf l).Sublist l := by
  induction l using convert_crlf_to_lf.induct with
  | case1 => simp
  | case2 a => simp
  | case3 a b rest h ih =>
      obtain ⟨rfl, rfl⟩ := h
      rw [convert_cons_pair]
      exact List.Sublist.cons _ (List.Sublist.cons₂ _ ih)
  | case4 a b rest h ih =>
      rw [convert_cons_other a b rest h]
      exact List.Sublist.cons₂ _ ih

theorem convert_count_ne (x : Nat) (l : List Nat) (hx : x ≠ 13) :
    (convert_crlf_to_lf l).count x = l.count x := by
  induction l using convert_crlf_to_lf.induct with
  | case1 => simp
  | case2 a => simp
  | case3 a b rest h ih =>
      obtain ⟨rfl, rfl⟩ := h
      have hx' : ¬(13 = x) := fun hh => hx hh.symm
      rw [convert_cons_pair]
      simp [List.count_cons, ih, hx, hx']
  | case4 a b rest h ih =>
      rw [convert_cons_other a b rest h]
      simp [List.count_cons, ih]

theorem convert_count_cr (l : List Nat) :
    (convert_crlf_to_lf l).count 13 + crlfPairs l = l.count 13 := by
  induction l using convert_crlf_to_lf.induct with
  | case1 => simp
  | case2 a => simp
  | case3 a b rest h ih =>
      obtain ⟨rfl, rfl⟩ := h
      rw [convert_cons_pair, crlfPairs_cons_pair]
      simp [List.count_cons] at ih ⊢
      omega
  | case4 a b rest h ih =>
      rw [convert_cons_other a b rest h, crlfPairs_cons_other a b rest h]
      simp [List.count_cons] at ih ⊢
      omega

theorem convert_append_cr (l : List Nat) :
    convert_crlf_to_lf (l ++ [13]) = convert_crlf_to_lf l ++ [13] := by
  induction l using convert_crlf_to_lf.induct with
  | case1 => simp
  | case2 a =>
      have h : ¬(a = 13 ∧ (13 : Nat) = 10) := by
        rintro ⟨-, hc⟩
        exact absurd hc (by decide)
      show convert_crlf_to_lf (a :: 13 :: []) = [a] ++ [13]
      rw [convert_cons_other a 13 [] h]
      simp
  | case3 a b rest h ih =>
      obtain ⟨rfl, rfl⟩ := h
      show convert_crlf_to_lf (13 :: 10 :: (rest ++ [13])) = _
      rw [convert_cons_pair, convert_cons_pair, ih]
      simp
  | case4 a b rest h ih =>
      show convert_crlf_to_lf (a :: b :: (rest ++ [13])) = _
      rw [convert_cons_other a b (rest ++ [13]) h, convert_cons_other a b rest h]
      have hb : b :: (rest ++ [13]) = (b :: rest) ++ [13] := rfl
      rw [hb, ih]
      simp

theorem convert_of_no_crlf (l : List Nat) (h : hasCRLF l = false) :
    convert_crlf_to_lf l = l := by
  induction l using convert_crlf_to_lf.induct with
  | case1 => rfl
  | case2 a => rfl
  | case3 a b rest hp ih =>
      exfalso
      obtain ⟨rfl, rfl⟩ := hp
      simp [hasCRLF_cons_cons] at h
  | case4 a b rest hp ih =>
      have hb : (a == 13 && b == 10) = false := by
        simpa using fun h13 h10 => hp ⟨h13, h10⟩
      rw [hasCRLF_cons_cons, hb, Bool.false_or] at h
      rw [convert_cons_other a b rest hp, ih h]

theorem containsCRCRLF_tail (a : Nat) (l : List Nat)
    (h : containsCRCRLF (a :: l) = false) : containsCRCRLF l = false := by
  match l with
  | [] => rfl
  | [b] => rfl
  | b :: c :: r =>
      simp only [containsCRCRLF, Bool.or_eq_false_iff] at h
      exact h.2

theorem convert_no_crlf_of_no_crcrlf (l : List Nat)
    (h : containsCRCRLF l = false) : hasCRLF (convert_crlf_to_lf l) = false := by
  induction l using convert_crlf_to_lf.induct with
  | case1 => rfl
  | case2 a => rfl
  | case3 a b rest hp ih =>
      obtain ⟨rfl, rfl⟩ := hp
      have h1 : containsCRCRLF rest = false :=
        containsCRCRLF_tail _ _ (containsCRCRLF_tail _ _ h)
      rw [convert_cons_pair]
      rw [hasCRLF_cons_of_ne 10 _ (by decide)]
      exact ih h1
  | case4 a b rest hp ih =>
      have h1 : containsCRCRLF (b :: rest) = false := containsCRCRLF_tail _ _ h
      rw [convert_cons_other a b rest hp]
      by_cases ha : a = 13
      · subst ha
        have hb : b ≠ 10 := fun hb => hp ⟨rfl, hb⟩
        have hhead : (convert_crlf_to_lf (b :: rest)).head? ≠ some 10 := by
          rw [convert_head]
          by_cases hbr : b = 13 ∧ rest.head? = some 10
          · exfalso
            rcases rest with _ | ⟨c, r⟩
            · simp at hbr
            · have hc : c = 10 := by simpa using hbr.2
              simp [containsCRCRLF, hbr.1, hc] at h
          · rw [if_neg hbr]
            intro hcontra
            exact hb (Option.some.inj hcontra)
        rw [hasCRLF_cr_cons _ hhead]
        exact ih h1
      · rw [hasCRLF_cons_of_ne a _ ha]
        exact ih h1

theorem convert_length_le (l : List Nat) :
    (convert_crlf_to_lf l).length ≤ l.length := by
  have h := convert_length l
  omega

theorem convert_length_lt_of_hasCRLF (l : List Nat) (h : hasCRLF l = true) :
    (convert_crlf_to_lf l).length < l.length := by
  have h1 := convert_length l
  have h2 : crlfPairs l ≠ 0 := by
    intro h0
    rw [(crlfPairs_eq_zero_iff l).mp h0] at h
    cases h
  omega

theorem is_text_file_eq (env : FileEnv) :
    is_text_file env.fmt env.ext = .ok (classifyBool env) := by
  cases h : env.fmt with
  | ok mt => simp [is_text_file, classifyBool, h]
  | error e => simp [is_text_file, classifyBool, h]

theorem process_file_not_text (env : FileEnv) (dry : Bool) (c : Counters)
    (hb : classifyBool env = false) :
    process_file env dry c = ⟨.ok (), c, none⟩ := by
  simp [process_file, is_text_file_eq, hb]

theorem process_file_read_error (env : FileEnv) (dry : Bool) (c : Counters)
    (e : IOErr) (hb : classifyBool env = true)
    (hr : env.readResult = .error e) :
    process_file env dry c
      = ⟨.error e, ⟨c.total_files + 1, c.converted_files⟩, none⟩ := by
  simp [process_file, is_text_file_eq, hb, hr]

theorem process_file_no_crlf (env : FileEnv) (dry : Bool) (c : Counters)
    (content : List Nat) (hb : classifyBool env = true)
    (hr : env.readResult = .ok content) (hc : hasCRLF content = false) :
    process_file env dry c
      = ⟨.ok (), ⟨c.total_files + 1, c.converted_files⟩, none⟩ := by
  simp [process_file, is_text_file_eq, hb, hr, hc]

theorem process_file_dry_convert (env : FileEnv) (c : Counters)
    (content : List Nat) (hb : classifyBool env = true)
    (hr : env.readResult = .ok content) (hc : hasCRLF content = true) :
    process_file env true c
      = ⟨.ok (), ⟨c.total_files + 1, c.converted_files + 1⟩, none⟩ := by
  have hlt := convert_length_lt_of_hasCRLF content hc
  have hne : ¬((convert_crlf_to_lf content).length = content.length) :=
    Nat.ne_of_lt hlt
  simp [process_file, is_text_file_eq, hb, hr, hc, hne]

theorem process_file_write_ok (env : FileEnv) (c : Counters)
    (content : List Nat) (hb : classifyBool env = true)
    (hr : env.readResult = .ok content) (hc : hasCRLF content = true)
    (hw : env.writeResult = .ok ()) :
    process_file env false c
      = ⟨.ok (), ⟨c.total_files + 1, c.converted_files + 1⟩,
          some (convert_crlf_to_lf content)⟩ := by
  have hlt := convert_length_lt_of_hasCRLF content hc
  have hne : ¬((convert_crlf_to_lf content).length = content.length) :=
    Nat.ne_of_lt hlt
  simp [process_file, is_text_file_eq, hb, hr, hc, hne, hw]

theorem process_file_write_error (env : FileEnv) (c : Counters)
    (content : List Nat) (e : IOErr) (hb : classifyBool env = true)
    (hr : env.readResult = .ok content) (hc : hasCRLF content = true)
    (hw : env.writeResult = .error e) :
    process_file env false c
      = ⟨.error e, ⟨c.total_files + 1, c.converted_files⟩, none⟩ := by
  have hlt := convert_length_lt_of_hasCRLF content hc
  have hne : ¬((convert_crlf_to_lf content).length = content.length) :=
    Nat.ne_of_lt hlt
  simp [process_file, is_text_file_eq, hb, hr, hc, hne, hw]

theorem reachesConvert_eq_false_of_not_text (env : FileEnv)
    (hb : classifyBool env = false) : reachesConvert env = false := by
  simp [reachesConvert, is_text_file_eq, hb]

theorem reachesConvert_eq_false_of_read_error (env : FileEnv) (e : IOErr)
    (hb : classifyBool env = true) (hr : env.readResult = .error e) :
    reachesConvert env = false := by
  simp [reachesConvert, is_text_file_eq, hb, hr]

theorem reachesConvert_eq_hasCRLF (env : FileEnv) (content : List Nat)
    (hb : classifyBool env = true) (hr : env.readResult = .ok content) :
    reachesConvert env = hasCRLF content := by
  by_cases hc : hasCRLF content = true
  · have hlt := convert_length_lt_of_hasCRLF content hc
    have hne : ((convert_crlf_to_lf content).length == content.length) = false := by
      simp [Nat.ne_of_lt hlt]
    simp [reachesConvert, is_text_file_eq, hb, hr, hc, hne]
  · simp only [Bool.not_eq_true] at hc
    simp [reachesConvert, is_text_file_eq, hb, hr, hc]

theorem runFrom_errors (roots : List RootTarget)
    (recursive skip_hidden dry_run : Bool) :
    ∀ (c : Counters) (n : Nat)
      (o : List (List OsName × Except IOErr Unit))
      (w : List (List OsName × List Nat)),
    (runFrom roots recursive skip_hidden dry_run ⟨c, n, o, w⟩).errors
      = n + countMissing roots := by
  induction roots with
  | nil =>
      intro c n o w
      simp [runFrom, countMissing]
  | cons r rs ih =>
      intro c n o w
      simp only [runFrom] at ih
      cases r with
      | missing =>
          simp only [runFrom, List.foldl_cons, runStep, process_path]
          rw [ih c (n + 1) o w]
          simp [countMissing, List.countP_cons, isMissingRoot]
          omega
      | fileRoot nm env =>
          simp only [runFrom, List.foldl_cons, runStep, process_path]
          rw [ih _ n _ _]
          simp [countMissing, List.countP_cons, isMissingRoot]
      | dirRoot t =>
          simp only [runFrom, List.foldl_cons, runStep, process_path]
          rw [ih _ n _ _]
          simp [countMissing, List.countP_cons, isMissingRoot]
      | other =>
          simp only [runFrom, List.foldl_cons, runStep, process_path]
          rw [ih _ n _ _]
          simp [countMissing, List.countP_cons, isMissingRoot]

theorem runFrom_decompose (roots : List RootTarget)
    (recursive skip_hidden dry_run : Bool) :
    ∀ (c : Counters) (n : Nat)
      (o : List (List OsName × Except IOErr Unit))
      (w : List (List OsName × List Nat)),
    runFrom roots recursive skip_hidden dry_run ⟨c, n, o, w⟩
      = ⟨(runFrom roots recursive skip_hidden dry_run ⟨c, 0, [], []⟩).counters,
         n + (runFrom roots recursive skip_hidden dry_run ⟨c, 0, [], []⟩).errors,
         o ++ (runFrom roots recursive skip_hidden dry_run ⟨c, 0, [], []⟩).outcomes,
         w ++ (runFrom roots recursive skip_hidden dry_run ⟨c, 0, [], []⟩).writes⟩ := by
  induction roots with
  | nil =>
      intro c n o w
      simp [runFrom]
  | cons r rs ih =>
      intro c n o w
      simp only [runFrom, List.foldl_cons]
      simp only [runFrom] at ih
      cases hp : process_path r recursive skip_hidden dry_run c with
      | ok d =>
          simp only [runStep, hp]
          rw [ih d.counters n (o ++ d.outcomes) (w ++ d.writes),
            ih d.counters 0 ([] ++ d.outcomes) ([] ++ d.writes)]
          simp only [RunState.mk.injEq]
          refine ⟨by simp, by omega, by simp, by simp⟩
      | error e =>
          simp only [runStep, hp]
          rw [ih c (n + 1) o w, ih c (0 + 1) [] []]
          simp only [RunState.mk.injEq]
          refine ⟨by simp, by omega, by simp, by simp⟩

theorem process_entries_outcomes (entries : List PEntry)
    (skip_hidden dry_run : Bool) :
    ∀ st : DirState,
    (process_entries entries skip_hidden dry_run st).outcomes.map Prod.fst
      = st.outcomes.map Prod.fst
        ++ (selectedFiles entries skip_hidden).map Prod.fst := by
  induction entries with
  | nil =>
      intro st
      simp [process_entries, selectedFiles]
  | cons e es ih =>
      intro st
      simp only [process_entries, List.foldl_cons] at ih ⊢
      by_cases hskip : (skip_hidden && is_hidden_path e.1) = true
      · have hstep : stepEntry skip_hidden dry_run st e = st := by
          simp [stepEntry, hskip]
        have hcond : (!(skip_hidden && is_hidden_path e.1) && e.2.isSome)
            = false := by
          rw [hskip]
          rfl
        have hsel : selectedFiles (e :: es) skip_hidden
            = selectedFiles es skip_hidden := by
          simp only [selectedFiles, List.filter_cons]
          rw [hcond]
          simp
        rw [hstep, hsel, ih st]
      · have hskip' : (skip_hidden && is_hidden_path e.1) = false := by
          simpa using hskip
        cases he : e.2 with
        | none =>
            have hstep : stepEntry skip_hidden dry_run st e = st := by
              simp [stepEntry, hskip', he]
            have hcond : (!(skip_hidden && is_hidden_path e.1) && e.2.isSome)
                = false := by
              rw [hskip', he]
              rfl
            have hsel : selectedFiles (e :: es) skip_hidden
                = selectedFiles es skip_hidden := by
              simp only [selectedFiles, List.filter_cons]
              rw [hcond]
              simp
            rw [hstep, hsel, ih st]
        | some env =>
            have hstep : stepEntry skip_hidden dry_run st e
                = ⟨(process_file env dry_run st.counters).counters,
                   st.outcomes
                     ++ [(e.1, (process_file env dry_run st.counters).result)],
                   st.writes
                     ++ (match (process_file env dry_run st.counters).written
                         with
                         | some w => [(e.1, w)]
                         | none => [])⟩ := by
              simp [stepEntry, hskip', he]
            have hcond : (!(skip_hidden && is_hidden_path e.1) && e.2.isSome)
                = true := by
              rw [hskip', he]
              rfl
            have hsel : selectedFiles (e :: es) skip_hidden
                = e :: selectedFiles es skip_hidden := by
              simp only [selectedFiles, List.filter_cons]
              rw [hcond]
              simp
            rw [hstep, hsel, ih]
            simp

theorem process_file_dry_written (env : FileEnv) (c : Counters) :
    (process_file env true c).written = none := by
  cases hb : classifyBool env with
  | false => rw [process_file_not_text env true c hb]
  | true =>
      cases hr : env.readResult with
      | error e => rw [process_file_read_error env true c e hb hr]
      | ok content =>
          cases hc : hasCRLF content with
          | false => rw [process_file_no_crlf env true c content hb hr hc]
          | true => rw [process_file_dry_convert env c content hb hr hc]

theorem process_entries_dry_writes (entries : List PEntry)
    (skip_hidden : Bool) :
    ∀ st : DirState,
    (process_entries entries skip_hidden true st).writes = st.writes := by
  induction entries with
  | nil =>
      intro st
      simp [process_entries]
  | cons e es ih =>
      intro st
      simp only [process_entries, List.foldl_cons] at ih ⊢
      by_cases hskip : (skip_hidden && is_hidden_path e.1) = true
      · have hstep : stepEntry skip_hidden true st e = st := by
          simp [stepEntry, hskip]
        rw [hstep, ih st]
      · have hskip' : (skip_hidden && is_hidden_path e.1) = false := by
          simpa using hskip
        cases he : e.2 with
        | none =>
            have hstep : stepEntry skip_hidden true st e = st := by
              simp [stepEntry, hskip', he]
            rw [hstep, ih st]
        | some env =>
            have hstep : stepEntry skip_hidden true st e
                = ⟨(process_file env true st.counters).counters,
                   st.outcomes
                     ++ [(e.1, (process_file env true st.counters).result)],
                   st.writes⟩ := by
              simp [stepEntry, hskip', he, process_file_dry_written]
            rw [hstep, ih]

theorem runFrom_dry_writes (roots : List RootTarget)
    (recursive skip_hidden : Bool) :
    ∀ st : RunState,
    (runFrom roots recursive skip_hidden true st).writes = st.writes := by
  induction roots with
  | nil =>
      intro st
      simp [runFrom]
  | cons r rs ih =>
      intro st
      simp only [runFrom, List.foldl_cons] at ih ⊢
      cases r with
      | missing =>
          simp only [runStep, process_path]
          rw [ih]
      | fileRoot nm env =>
          simp only [runStep, process_path]
          rw [ih]
          simp [process_file_dry_written]
      | dirRoot t =>
          simp only [runStep, process_path]
          rw [ih]
          simp only [process_directory]
          rw [process_entries_dry_writes]
          simp
      | other =>
          simp only [runStep, process_path]
          rw [ih]
          simp

/-- C1 (counterexample): for the input `\r\r\n` the single left-to-right
pass leaves the CRLF pair `\r\n` in its output, so the output does contain
a `\r\n` substring and `convert` is not idempotent there. -/
theorem claim1_counterexample :
    hasCRLF (convert_crlf_to_lf [13, 13, 10]) = true
    ∧ convert_crlf_to_lf (convert_crlf_to_lf [13, 13, 10])
        ≠ convert_crlf_to_lf [13, 13, 10] := by
  decide

/-- C1 (amended): for every byte sequence that contains no `\r\r\n`
substring, the output of `convert` contains no `\r\n` substring and
`convert` is idempotent on it. -/
theorem claim1_amended (b : List Nat) (h : containsCRCRLF b = false) :
    hasCRLF (convert_crlf_to_lf b) = false
    ∧ convert_crlf_to_lf (convert_crlf_to_lf b) = convert_crlf_to_lf b := by
  have h1 := convert_no_crlf_of_no_crcrlf b h
  exact ⟨h1, convert_of_no_crlf _ h1⟩

/-- Witness for C1 (amended) at the concrete input `H\r\nI`. -/
theorem claim1_amended_witness :
    containsCRCRLF [72, 13, 10, 73] = false
    ∧ (hasCRLF (convert_crlf_to_lf [72, 13, 10, 73]) = false
       ∧ convert_crlf_to_lf (convert_crlf_to_lf [72, 13, 10, 73])
           = convert_crlf_to_lf [72, 13, 10, 73]) :=
  ⟨by decide, claim1_amended [72, 13, 10, 73] (by decide)⟩

/-- C2 (code bug): with `recursive = true` and `skip_hidden = true`, the
walk of a directory `root` containing the hidden directory `.git` with the
regular text file `config.txt` (content `Hi\r\n`) inside still processes
and rewrites `root/.git/config.txt`: the `continue` in the loop skips only
the `.git` entry itself, while `walkdir` goes on descending into it and
`is_hidden` tests only the final path component, so nothing under a hidden
directory is pruned. -/
theorem claim2_code_bug :
    (process_directory hiddenTree true true false ⟨0, 0⟩).writes
      = [([OsName.utf8 "root", OsName.utf8 ".git", OsName.utf8 "config.txt"],
          [72, 105, 10])]
    ∧ (process_directory hiddenTree true true false ⟨0, 0⟩).counters
        = ⟨1, 1⟩ := by
  decide

/-- C3 (counterexample): a run over three file roots where the first
file's read fails and the second file's write-back fails records both
I/O errors as those files' outcomes and continues with the third file,
but the run's error counter stays `0` — file-level I/O failures, read
and write alike, do not increment it. -/
theorem claim3_counterexample :
    (runAll [RootTarget.fileRoot (OsName.utf8 "a.txt") envReadErr,
             RootTarget.fileRoot (OsName.utf8 "b.txt") envWriteErr,
             RootTarget.fileRoot (OsName.utf8 "c.txt") envCRLF]
        false true false).errors = 0
    ∧ (runAll [RootTarget.fileRoot (OsName.utf8 "a.txt") envReadErr,
             RootTarget.fileRoot (OsName.utf8 "b.txt") envWriteErr,
             RootTarget.fileRoot (OsName.utf8 "c.txt") envCRLF]
        false true false).outcomes
        = [([OsName.utf8 "a.txt"], Except.error IOErr.fail),
           ([OsName.utf8 "b.txt"], Except.error IOErr.fail),
           ([OsName.utf8 "c.txt"], Except.ok ())]
    ∧ (runAll [RootTarget.fileRoot (OsName.utf8 "a.txt") envReadErr,
             RootTarget.fileRoot (OsName.utf8 "b.txt") envWriteErr,
             RootTarget.fileRoot (OsName.utf8 "c.txt") envCRLF]
        false true false).counters = ⟨3, 1⟩ := by
  decide

/-- C3 (amended): a per-file I/O failure is caught at file granularity —
a failing read and a failing write-back are each recorded as that file's
error outcome and each selected candidate still receives exactly one
outcome in order — but the run's error counter counts only
root-resolution failures (it equals the number of missing roots,
whatever happens at file level). -/
theorem claim3_amended :
    (∀ (roots : List RootTarget) (recursive skip_hidden dry_run : Bool),
      (runAll roots recursive skip_hidden dry_run).errors
        = countMissing roots)
    ∧ (∀ (entries : List PEntry) (skip_hidden dry_run : Bool)
        (st : DirState),
        (process_entries entries skip_hidden dry_run st).outcomes.map
            Prod.fst
          = st.outcomes.map Prod.fst
            ++ (selectedFiles entries skip_hidden).map Prod.fst)
    ∧ (∀ (fmt : Except FmtErr String) (ext : Option String) (e : IOErr)
        (wr : Except IOErr Unit) (dry : Bool) (c : Counters),
        is_text_file fmt ext = Except.ok true →
        process_file ⟨fmt, ext, Except.error e, wr⟩ dry c
          = ⟨Except.error e, ⟨c.total_files + 1, c.converted_files⟩,
              none⟩)
    ∧ (∀ (fmt : Except FmtErr String) (ext : Option String)
        (content : List Nat) (e : IOErr) (c : Counters),
        is_text_file fmt ext = Except.ok true →
        hasCRLF content = true →
        process_file ⟨fmt, ext, Except.ok content, Except.error e⟩ false c
          = ⟨Except.error e, ⟨c.total_files + 1, c.converted_files⟩,
              none⟩) := by
  refine ⟨?_, ?_, ?_, ?_⟩
  · intro roots recursive skip_hidden dry_run
    simp only [runAll]
    rw [runFrom_errors]
    omega
  · intro entries skip_hidden dry_run st
    exact process_entries_outcomes entries skip_hidden dry_run st
  · intro fmt ext e wr dry c hT
    have h1 : is_text_file fmt ext
        = .ok (classifyBool ⟨fmt, ext, Except.error e, wr⟩) :=
      is_text_file_eq ⟨fmt, ext, Except.error e, wr⟩
    rw [hT] at h1
    injection h1 with h2
    exact process_file_read_error ⟨fmt, ext, Except.error e, wr⟩ dry c e
      h2.symm rfl
  · intro fmt ext content e c hT hc
    have h1 : is_text_file fmt ext
        = .ok (classifyBool ⟨fmt, ext, Except.ok content, Except.error e⟩) :=
      is_text_file_eq ⟨fmt, ext, Except.ok content, Except.error e⟩
    rw [hT] at h1
    injection h1 with h2
    exact process_file_write_error ⟨fmt, ext, Except.ok content,
      Except.error e⟩ c content e h2.symm rfl hc rfl

/-- Witness for C3 (amended) at two concrete text-classified files, one
whose read fails and one whose write-back fails. -/
theorem claim3_amended_witness :
    is_text_file (Except.ok "text/plain") (some "txt") = Except.ok true
    ∧ hasCRLF [66, 13, 10] = true
    ∧ process_file ⟨Except.ok "text/plain", some "txt",
        Except.error IOErr.fail, Except.ok ()⟩ false ⟨0, 0⟩
        = ⟨Except.error IOErr.fail, ⟨1, 0⟩, none⟩
    ∧ process_file ⟨Except.ok "text/plain", some "txt",
        Except.ok [66, 13, 10], Except.error IOErr.fail⟩ false ⟨0, 0⟩
        = ⟨Except.error IOErr.fail, ⟨1, 0⟩, none⟩ :=
  ⟨by decide, by decide,
   claim3_amended.2.2.1 (Except.ok "text/plain") (some "txt")
     IOErr.fail (Except.ok ()) false ⟨0, 0⟩ (by decide),
   claim3_amended.2.2.2 (Except.ok "text/plain") (some "txt")
     [66, 13, 10] IOErr.fail ⟨0, 0⟩ (by decide) (by decide)⟩

/-- C4 (counterexample): in dry-run mode, for a text file with CRLF
content, no write happens but `converted_files` IS incremented (the
increment sits after the `if dry_run` branch in the source), contradicting
the claim that it is incremented only when a file is actually written. -/
theorem claim4_counterexample :
    (process_file envCRLF true ⟨0, 0⟩).written = none
    ∧ (process_file envCRLF true ⟨0, 0⟩).counters.converted_files = 1 := by
  decide

/-- C4 (amended): `converted_files` is incremented exactly when a file
reaches the conversion stage and either dry-run is active or the write
succeeds; in dry-run mode nothing is ever written but the counter is
still incremented; outside dry-run the increment coincides exactly with a
write-back. -/
theorem claim4_amended (env : FileEnv) (c : Counters) :
    (process_file env true c).written = none
    ∧ (process_file env true c).counters.converted_files
        = c.converted_files + (if reachesConvert env then 1 else 0)
    ∧ (process_file env false c).counters.converted_files
        = c.converted_files
          + (if reachesConvert env && writeOk env then 1 else 0)
    ∧ (process_file env false c).written.isSome
        = (reachesConvert env && writeOk env) := by
  cases hb : classifyBool env with
  | false =>
      rw [process_file_not_text env true c hb,
        process_file_not_text env false c hb,
        reachesConvert_eq_false_of_not_text env hb]
      simp
  | true =>
      cases hr : env.readResult with
      | error e =>
          rw [process_file_read_error env true c e hb hr,
            process_file_read_error env false c e hb hr,
            reachesConvert_eq_false_of_read_error env e hb hr]
          simp
      | ok content =>
          have hrc := reachesConvert_eq_hasCRLF env content hb hr
          cases hc : hasCRLF content with
          | false =>
              rw [process_file_no_crlf env true c content hb hr hc,
                process_file_no_crlf env false c content hb hr hc, hrc, hc]
              simp
          | true =>
              rw [process_file_dry_convert env c content hb hr hc, hrc, hc]
              cases hw : env.writeResult with
              | ok u =>
                  cases u
                  rw [process_file_write_ok env c content hb hr hc hw]
                  simp [writeOk, hw]
              | error e =>
                  rw [process_file_write_error env c content e hb hr hc hw]
                  simp [writeOk, hw]

/-- C5 (counterexample): when format detection fails (the call that opens
and reads the file), `is_text_file` does not return an error result: for a
non-allow-listed extension it swallows the failure and returns
`Ok(false)`. -/
theorem claim5_counterexample :
    is_text_file (Except.error FmtErr.err) (some "bin") = Except.ok false
    ∧ is_text_file (Except.error FmtErr.err) (some "bin")
        ≠ Except.error IOErr.fail := by
  decide

/-- C5 (amended): `is_text_file` never propagates any error: it always
returns `Ok`; a detection failure falls back to the extension allow-list
(`Ok(is_code)`), and on success heuristic ambiguity only yields the
boolean classification, never an error. -/
theorem claim5_amended (fmt : Except FmtErr String) (ext : Option String)
    (e : FmtErr) (mt : String) :
    (∃ b : Bool, is_text_file fmt ext = Except.ok b)
    ∧ is_text_file (Except.error e) ext = Except.ok (is_code_ext ext)
    ∧ is_text_file (Except.ok mt) ext
        = Except.ok (strStartsWith mt "text/" || is_code_ext ext) := by
  refine ⟨?_, rfl, rfl⟩
  cases fmt with
  | ok mt2 => exact ⟨_, rfl⟩
  | error e2 => exact ⟨_, rfl⟩

/-- C6: the scan emits a subsequence of the input (no insertion, no
reordering), its length is the input length minus the number of CRLF
pairs consumed, length is preserved exactly when the input has no `\r\n`
substring, a lone trailing `\r` is emitted unchanged, every byte other
than `\r` keeps its multiplicity, and exactly one `\r` disappears per
consumed CRLF pair. -/
theorem claim6_scan (b : List Nat) :
    (convert_crlf_to_lf b).Sublist b
    ∧ (convert_crlf_to_lf b).length + crlfPairs b = b.length
    ∧ ((convert_crlf_to_lf b).length = b.length ↔ hasCRLF b = false)
    ∧ convert_crlf_to_lf (b ++ [13]) = convert_crlf_to_lf b ++ [13]
    ∧ (∀ x : Nat, x ≠ 13 → (convert_crlf_to_lf b).count x = b.count x)
    ∧ (convert_crlf_to_lf b).count 13 + crlfPairs b = b.count 13 := by
  refine ⟨convert_sublist b, convert_length b, ?_, convert_append_cr b,
    fun x hx => convert_count_ne x b hx, convert_count_cr b⟩
  constructor
  · intro hlen
    have h := convert_length b
    have hz : crlfPairs b = 0 := by omega
    exact (crlfPairs_eq_zero_iff b).mp hz
  · intro hno
    have h := convert_length b
    have hz : crlfPairs b = 0 := (crlfPairs_eq_zero_iff b).mpr hno
    omega

/-- Witness for C6 at the concrete input `H\r\n`. -/
theorem claim6_scan_witness :
    (convert_crlf_to_lf [72, 13, 10]).Sublist [72, 13, 10]
    ∧ (convert_crlf_to_lf [72, 13, 10]).count 10 = [72, 13, 10].count 10 :=
  ⟨(claim6_scan [72, 13, 10]).1,
   (claim6_scan [72, 13, 10]).2.2.2.2.1 10 (by decide)⟩

/-- C7: on any byte sequence without a `\r\n` substring, `convert` is the
identity. -/
theorem claim7_identity (b : List Nat) (h : hasCRLF b = false) :
    convert_crlf_to_lf b = b :=
  convert_of_no_crlf b h

/-- Witness for C7 at the concrete input `H\n\r` (lone `\r`, no CRLF). -/
theorem claim7_identity_witness :
    hasCRLF [72, 10, 13] = false
    ∧ convert_crlf_to_lf [72, 10, 13] = [72, 10, 13] :=
  ⟨by decide, claim7_identity [72, 10, 13] (by decide)⟩

/-- C8: bytes reach the disk only when the file is classified as text,
the transform strictly reduced the length, and dry-run is off (and what
is written is exactly the transformed content); moreover a whole dry-run
invocation performs no write at all. -/
theorem claim8_write_guard :
    (∀ (env : FileEnv) (dry : Bool) (c : Counters) (w : List Nat),
      (process_file env dry c).written = some w →
      is_text_file env.fmt env.ext = Except.ok true
      ∧ dry = false
      ∧ ∃ content, env.readResult = Except.ok content
          ∧ (convert_crlf_to_lf content).length < content.length
          ∧ w = convert_crlf_to_lf content)
    ∧ (∀ (roots : List RootTarget) (recursive skip_hidden : Bool),
        (runAll roots recursive skip_hidden true).writes = []) := by
  constructor
  · intro env dry c w hw
    cases hb : classifyBool env with
    | false =>
        rw [process_file_not_text env dry c hb] at hw
        simp at hw
    | true =>
        cases hr : env.readResult with
        | error e =>
            rw [process_file_read_error env dry c e hb hr] at hw
            simp at hw
        | ok content =>
            cases hc : hasCRLF content with
            | false =>
                rw [process_file_no_crlf env dry c content hb hr hc] at hw
                simp at hw
            | true =>
                cases dry with
                | true =>
                    rw [process_file_dry_convert env c content hb hr hc] at hw
                    simp at hw
                | false =>
                    cases hwr : env.writeResult with
                    | error e =>
                        rw [process_file_write_error env c content e hb hr hc
                          hwr] at hw
                        simp at hw
                    | ok u =>
                        cases u
                        rw [process_file_write_ok env c content hb hr hc
                          hwr] at hw
                        simp only [Option.some.injEq] at hw
                        refine ⟨?_, rfl, content, rfl,
                          convert_length_lt_of_hasCRLF content hc, hw.symm⟩
                        rw [is_text_file_eq env, hb]
  · intro roots recursive skip_hidden
    simp only [runAll]
    rw [runFrom_dry_writes]

/-- Witness for C8 at a concrete text file with content `A\r\n` that gets
written back; the second component applies the guard to its write. -/
theorem claim8_write_guard_witness :
    (process_file envCRLF false ⟨0, 0⟩).written = some [65, 10]
    ∧ (is_text_file envCRLF.fmt envCRLF.ext = Except.ok true
       ∧ false = false
       ∧ ∃ content, envCRLF.readResult = Except.ok content
           ∧ (convert_crlf_to_lf content).length < content.length
           ∧ [65, 10] = convert_crlf_to_lf content) :=
  ⟨by decide,
   claim8_write_guard.1 envCRLF false ⟨0, 0⟩ [65, 10] (by decide)⟩

/-- C9 (counterexample): a run whose only root exists but is neither a
regular file nor a directory ends with an error counter of `0`, not `1`:
the source only logs a warning for such a root. -/
theorem claim9_counterexample :
    (runAll [RootTarget.other] true true false).errors = 0
    ∧ (runAll [RootTarget.other] true true false).errors ≠ 1 := by
  decide

/-- C9 (amended): the error counter equals the number of missing roots; a
missing root adds exactly one error and leaves counters, outcomes and
writes of the remaining roots untouched (processing continues); a root
that exists but is neither file nor directory changes nothing at all. -/
theorem claim9_amended :
    (∀ (roots : List RootTarget) (recursive skip_hidden dry_run : Bool),
      (runAll roots recursive skip_hidden dry_run).errors
        = countMissing roots)
    ∧ (∀ (roots : List RootTarget) (recursive skip_hidden dry_run : Bool),
      runAll (RootTarget.missing :: roots) recursive skip_hidden dry_run
        = ⟨(runAll roots recursive skip_hidden dry_run).counters,
           (runAll roots recursive skip_hidden dry_run).errors + 1,
           (runAll roots recursive skip_hidden dry_run).outcomes,
           (runAll roots recursive skip_hidden dry_run).writes⟩)
    ∧ (∀ (roots : List RootTarget) (recursive skip_hidden dry_run : Bool),
      runAll (RootTarget.other :: roots) recursive skip_hidden dry_run
        = runAll roots recursive skip_hidden dry_run) := by
  refine ⟨?_, ?_, ?_⟩
  · intro roots recursive skip_hidden dry_run
    simp only [runAll]
    rw [runFrom_errors]
    omega
  · intro roots recursive skip_hidden dry_run
    simp only [runAll, runFrom, List.foldl_cons, runStep, process_path]
    have hd := runFrom_decompose roots recursive skip_hidden dry_run
      ⟨0, 0⟩ (0 + 1) [] []
    simp only [runFrom] at hd
    rw [hd]
    simp only [RunState.mk.injEq, List.nil_append]
    refine ⟨by simp, by omega, by simp, by simp⟩
  · intro roots recursive skip_hidden dry_run
    simp [runAll, runFrom, runStep, process_path]

/-- C10: `is_hidden` is `false` whenever the final path component is
absent or not valid UTF-8, so even with `skip_hidden = true` an entry
whose base name is invalid UTF-8 is never treated as hidden: it is not
excluded and still gets processed. -/
theorem claim10_hidden (bs : List Nat) (p : List OsName) (sh dry : Bool)
    (st : DirState) (env : FileEnv)
    (h : p.getLast? = some (OsName.invalid bs)) :
    is_hidden none = false
    ∧ is_hidden (some (OsName.invalid bs)) = false
    ∧ (sh && is_hidden_path p) = false
    ∧ (process_entries [(p, some env)] sh dry st).outcomes
        = st.outcomes ++ [(p, (process_file env dry st.counters).result)] := by
  have hhp : is_hidden_path p = false := by
    simp [is_hidden_path, h, is_hidden, OsName.toStr]
  refine ⟨rfl, rfl, by simp [hhp], ?_⟩
  simp [process_entries, stepEntry, hhp]

/-- Witness for C10 at a one-component path whose name is the invalid
UTF-8 byte string `[255]`. -/
theorem claim10_hidden_witness :
    [OsName.invalid [255]].getLast? = some (OsName.invalid [255])
    ∧ (is_hidden none = false
       ∧ is_hidden (some (OsName.invalid [255])) = false
       ∧ (true && is_hidden_path [OsName.invalid [255]]) = false
       ∧ (process_entries [([OsName.invalid [255]], some envCRLF)] true false
            ⟨⟨0, 0⟩, [], []⟩).outcomes
           = [] ++ [([OsName.invalid [255]],
               (process_file envCRLF false ⟨0, 0⟩).result)]) :=
  ⟨by decide, claim10_hidden [255] [OsName.invalid [255]] true false
    ⟨⟨0, 0⟩, [], []⟩ envCRLF (by decide)⟩

end NoCrlf
